import Mathlib

/-!
Verification development for the FitAI backend's idempotent side-effect
orchestration subsystem: the meal-analysis pipeline (idempotency ledger,
quota reservation, compensation) in `backend/app/main.py` /
`backend/app/subscription.py`, and the payment reconciliation resolver
(webhook + refresh convergence) in `backend/app/payments.py`.

All definitions are shallow embeddings of the Python source: timestamps are
modelled as integers (epoch seconds), database tables as association lists,
and the SHA-256 hex digest used for dedupe keys as an arbitrary function
`h : String → String` applied to the exact source strings the code builds.
-/

namespace FitAI

/-! ## subscription.py -/

/-- Embeds `get_effective_subscription_status` (subscription.py lines 11-25).
Timestamps are epoch integers; `_to_utc` normalisation is the identity in
this model. -/
def getEffectiveSubscriptionStatus (rawStatus : String) (activeUntil : Option Int)
    (now : Int) : String :=
  if rawStatus == "blocked" then "blocked"
  else
    match activeUntil with
    | none => "free"
    | some t => if t ≥ now then "active" else "expired"

/-- Embeds `get_daily_limit_for_status` (subscription.py lines 28-31). -/
def getDailyLimitForStatus (status : String) : Int :=
  if status == "blocked" then 0
  else if status == "active" then 20 else 2

/-- Embeds `get_referral_credits` (subscription.py lines 34-40): the stored
value coerced to an integer, floored at zero (conversion failures, modelled
out of scope, yield 0). -/
def getReferralCredits (raw : Int) : Int := max 0 raw

/-- A row of the `users` table, restricted to the fields the analyzed
pipeline reads. -/
structure UserRow where
  id : Nat
  subscriptionStatus : String
  subscriptionActiveUntil : Option Int
  referralCredits : Int
deriving DecidableEq, Repr

/-- Embeds `get_user_daily_limit` (subscription.py lines 43-50). -/
def getUserDailyLimit (u : UserRow) (now : Int) : Int :=
  getDailyLimitForStatus
    (getEffectiveSubscriptionStatus u.subscriptionStatus u.subscriptionActiveUntil now)
    + getReferralCredits u.referralCredits

/-! ## payments.py : success predicates and extension arithmetic -/

/-- A provider payment object as both success predicates read it:
`status`, and the optional `paid` / `captured` booleans (`None` when the
key is absent from the provider response). -/
structure ProviderPayment where
  status : String
  paid : Option Bool
  captured : Option Bool
deriving DecidableEq, Repr

/-- Embeds `_is_successful_payment_event` (payments.py lines 301-308): the
webhook-side success predicate. -/
def isSuccessfulPaymentEvent (eventName : String) (p : ProviderPayment) : Bool :=
  if eventName == "payment.succeeded" then true
  else p.status == "succeeded" && p.paid == some true && p.captured == some true

/-- Embeds `_is_successful_provider_payment_for_refresh` (payments.py lines
311-322): the refresh-side success predicate. Absent `paid`/`captured`
fields do not block; only explicit `False` does. -/
def isSuccessfulProviderPaymentForRefresh (p : ProviderPayment) : Bool :=
  if !(p.status == "succeeded") then false
  else if p.paid == some false || p.captured == some false then false
  else true

/-- Embeds the active-until computation of `refresh_yookassa_payment`
(payments.py lines 889-895): base is the stored active-until when it is a
datetime strictly in the future, else now; the grant duration is added to
the base. -/
def refreshNewActiveUntil (oldUntil : Option Int) (now dur : Int) : Int :=
  (match oldUntil with
   | some t => if t > now then t else now
   | none => now) + dur

/-- Embeds the active-until computation of `yookassa_webhook` (payments.py
lines 1217-1223; the dependency-override branch at lines 1206-1212 uses the
same formula). -/
def webhookNewActiveUntil (oldUntil : Option Int) (now dur : Int) : Int :=
  (match oldUntil with
   | some t => if t > now then t else now
   | none => now) + dur

/-! ## payments.py : dedupe-key derivation -/

/-- A webhook payload as `_webhook_dedupe_key` reads it: the `event` string,
the embedded object's `id` (empty string when missing, mirroring
`str(payment_object.get("id") or "")`), an optional explicit event id
(`event_id` or `id` at top level), and the fallback fields. -/
structure WebhookPayload where
  event : String
  paymentId : String
  explicitEventId : Option String
  objectStatus : String
  createdAt : String
deriving DecidableEq, Repr

/-- Embeds `_payment_success_dedupe_source` (payments.py lines 220-221). -/
def paymentSuccessDedupeSource (paymentId : String) : String :=
  "payment_success:" ++ paymentId

/-- Embeds `_payment_success_dedupe_key` (payments.py lines 224-226);
`h` stands for the SHA-256 hex digest. -/
def paymentSuccessDedupeKey (h : String → String) (paymentId : String) : String :=
  h (paymentSuccessDedupeSource paymentId)

/-- Embeds `_webhook_dedupe_key` (payments.py lines 201-217); `h` stands
for the SHA-256 hex digest applied to the derived source string. -/
def webhookDedupeKey (h : String → String) (p : WebhookPayload) : String :=
  if p.event == "payment.succeeded" && !(p.paymentId == "") then
    h (paymentSuccessDedupeSource p.paymentId)
  else
    match p.explicitEventId with
    | some e => h ("event_id:" ++ e)
    | none =>
        h ("fallback:" ++ p.event ++ "|" ++ p.paymentId ++ "|"
            ++ p.objectStatus ++ "|" ++ p.createdAt)

/-! ## payments.py : webhook verification -/

/-- The configuration and request facts `_verify_yookassa_webhook` consults.
`authOk` stands for the result of `_webhook_verification_ok` (the Basic-auth
shared-credential comparison); `clientIp` is the extracted client address,
`none` when absent or unparseable. -/
structure WebhookEnv where
  isProduction : Bool
  bypassFlag : Bool
  ipAllowlist : List String
  clientIp : Option String
  authOk : Bool
  hasProxyHeader : Bool
deriving Repr

/-- Embeds `Settings.payments_webhook_dev_bypass_enabled` (config.py lines
140-141): the flag is effective only outside production. -/
def paymentsWebhookDevBypassEnabled (env : WebhookEnv) : Bool :=
  env.bypassFlag && !env.isProduction

/-- Embeds `_client_ip_allowed` (payments.py lines 97-132); `ipMatch a ip`
stands for the address/network membership test of one allowlist entry. -/
def clientIpAllowed (env : WebhookEnv) (ipMatch : String → String → Bool) : Bool :=
  if !env.isProduction then true
  else if env.ipAllowlist.isEmpty then true
  else
    match env.clientIp with
    | none => false
    | some ip => env.ipAllowlist.any (fun a => ipMatch a ip)

/-- Embeds `_verify_yookassa_webhook` (payments.py lines 171-194). -/
def verifyYookassaWebhook (env : WebhookEnv) (ipMatch : String → String → Bool) : Bool :=
  if !(clientIpAllowed env ipMatch) then false
  else if env.authOk then true
  else if paymentsWebhookDevBypassEnabled env && !env.isProduction
      && env.hasProxyHeader then true
  else false

/-! ## main.py : the meal-analysis pipeline (`analyze_meal`)

State model. The `analyze_requests` ledger and the `usage_daily` counter
table are association lists; `execCount` counts invocations of the external
inference call (`openrouter_client.analyze_image`); `meals` counts committed
meal rows. Validation, onboarding and rate-limit checks precede every
ledger/quota interaction in the source and are treated as preconditions. -/

/-- Status column of an `analyze_requests` row. -/
inductive LedgerStatus
  | processing
  | completed
  | failed
deriving DecidableEq, Repr

/-- A row of the `analyze_requests` table. -/
structure AnalyzeRequest where
  id : Nat
  userId : Nat
  key : String
  status : LedgerStatus
  responseJson : Option String
deriving DecidableEq, Repr

/-- The mutable store touched by `analyze_meal`: ledger rows, usage rows
keyed by (user id, day), the count of external inference invocations and of
committed meal rows. `nextId` supplies fresh ledger row ids. -/
structure AnalyzeState where
  ledger : List AnalyzeRequest
  nextId : Nat
  usage : List ((Nat × Nat) × Int)
  execCount : Nat
  meals : Nat
deriving DecidableEq, Repr

/-- The `SELECT ... WHERE user_id = $1 AND idempotency_key = $2` ledger
lookup. -/
def findRequest (s : AnalyzeState) (uid : Nat) (k : String) : Option AnalyzeRequest :=
  s.ledger.find? (fun r => r.userId == uid && r.key == k)

/-- The `SELECT photos_used FROM usage_daily WHERE user_id AND date`
lookup. -/
def usageLookup (s : AnalyzeState) (uid day : Nat) : Option Int :=
  (s.usage.find? (fun e => e.1 == (uid, day))).map (fun e => e.2)

/-- The used count the code works with: the stored value, defaulting to 0
when no row exists. -/
def usageOf (s : AnalyzeState) (uid day : Nat) : Int :=
  (usageLookup s uid day).getD 0

/-- The `INSERT INTO usage_daily ... ON CONFLICT DO NOTHING` row creation. -/
def usageEnsureRow (s : AnalyzeState) (uid day : Nat) : AnalyzeState :=
  if (usageLookup s uid day).isSome then s
  else { s with usage := ((uid, day), 0) :: s.usage }

/-- An `UPDATE usage_daily SET photos_used = f(photos_used)` on the (uid,
day) row; a no-op when the row is absent, as in SQL. -/
def usageUpdate (s : AnalyzeState) (uid day : Nat) (f : Int → Int) : AnalyzeState :=
  { s with usage := s.usage.map (fun e => if e.1 == (uid, day) then (e.1, f e.2) else e) }

/-- Ledger insert of a fresh `processing` record (main.py lines 634-642). -/
def ledgerInsert (s : AnalyzeState) (uid : Nat) (k : String) : AnalyzeState × Nat :=
  ({ s with
      ledger := ⟨s.nextId, uid, k, LedgerStatus.processing, none⟩ :: s.ledger,
      nextId := s.nextId + 1 },
   s.nextId)

/-- The compensation update `SET status = 'failed' ... WHERE id = $1 AND
status = 'processing'` (main.py lines 967-970). -/
def ledgerMarkFailed (s : AnalyzeState) (rid : Nat) : AnalyzeState :=
  { s with
      ledger := s.ledger.map (fun r =>
        if r.id == rid && r.status == LedgerStatus.processing then
          { r with status := LedgerStatus.failed }
        else r) }

/-- The conditional completion update `SET status = 'completed',
response_json = ... WHERE id = $2 AND status = 'processing'` (main.py lines
902-911). -/
def ledgerComplete (s : AnalyzeState) (rid : Nat) (resp : String) : AnalyzeState :=
  { s with
      ledger := s.ledger.map (fun r =>
        if r.id == rid && r.status == LedgerStatus.processing then
          { r with status := LedgerStatus.completed, responseJson := some resp }
        else r) }

/-- The compensation decrement `SET photos_used = GREATEST(0, photos_used -
1)` (main.py lines 958-961). -/
def releaseQuota (uid day : Nat) (s : AnalyzeState) : AnalyzeState :=
  usageUpdate s uid day (fun u => max 0 (u - 1))

/-- The `except` block of `analyze_meal` (main.py lines 954-972): release
the quota when the increment happened, then mark the ledger record failed
when one is known. -/
def compensate (uid day : Nat) (usageIncremented : Bool) (rid : Option Nat)
    (s : AnalyzeState) : AnalyzeState :=
  let s1 := if usageIncremented then releaseQuota uid day s else s
  match rid with
  | some i => ledgerMarkFailed s1 i
  | none => s1

/-- Error codes `analyze_meal` can surface on the modelled paths. -/
inductive AnalyzeError
  | idempotencyConflict
  | quotaExceeded
  | validationFailed
  | providerError
  | internalError
deriving DecidableEq, Repr

/-- Outcome of one `analyze_meal` submission: the JSON response payload
(opaque string) or an error code. -/
inductive AnalyzeOutcome
  | ok (resp : String)
  | err (e : AnalyzeError)
deriving DecidableEq, Repr

/-- Result of the external inference call together with downstream
parse/schema validation (main.py lines 739-774): a clean response string,
or a failure classified by error code. -/
inductive ExecResult
  | ok (resp : String)
  | fail (e : AnalyzeError)
deriving DecidableEq, Repr

/-- The quota-reservation transaction (main.py lines 661-714): create the
row if absent, read under lock, compare strictly against the limit, and
increment only below the limit. `.error ()` is the QUOTA_EXCEEDED raise,
which aborts the transaction (the caller keeps the pre-transaction
state). -/
def reserveQuota (uid day : Nat) (limit : Int) (s : AnalyzeState) :
    Except Unit (Int × AnalyzeState) :=
  let s1 := usageEnsureRow s uid day
  let used := usageOf s1 uid day
  if used ≥ limit then Except.error ()
  else
    let s2 := usageUpdate s1 uid day (fun u => u + 1)
    Except.ok (usageOf s2 uid day, s2)

/-- Result of the `try` body of `analyze_meal`: a replay return from inside
the unique-violation handler, a committed success, or a failure carrying
the state at the raise plus the compensation inputs (`usage_incremented`,
`analyze_request_id`). -/
inductive TryResult
  | replay (resp : String) (s : AnalyzeState)
  | success (resp : String) (s : AnalyzeState)
  | failure (e : AnalyzeError) (s : AnalyzeState)
      (usageIncremented : Bool) (rid : Option Nat)
deriving Repr

/-- The `try` body of `analyze_meal` (main.py lines 630-952): ledger insert
(step 1), quota reservation (step 2), forced-failure switch, external
inference call (step 3), and the finalize transaction (step 4).
`forceFail` models `meals_analyze_force_fail_after_reserve_enabled`;
`commitFails` models a failure inside the finalize transaction, which rolls
the transaction back before the exception handler runs. -/
def tryBody (uid day : Nat) (limit : Int) (key : Option String) (forceFail : Bool)
    (effect : ExecResult) (commitFails : Bool) (s0 : AnalyzeState) : TryResult :=
  let step1 : Except TryResult (AnalyzeState × Option Nat) :=
    match key with
    | none => Except.ok (s0, none)
    | some k =>
      match findRequest s0 uid k with
      | none =>
          let p := ledgerInsert s0 uid k
          Except.ok (p.1, some p.2)
      | some r =>
          if r.status == LedgerStatus.completed && r.responseJson.isSome then
            Except.error (TryResult.replay (r.responseJson.getD "") s0)
          else
            Except.error (TryResult.failure AnalyzeError.idempotencyConflict s0
              false (some r.id))
  match step1 with
  | Except.error t => t
  | Except.ok (s1, rid) =>
    match reserveQuota uid day limit s1 with
    | Except.error _ =>
        TryResult.failure AnalyzeError.quotaExceeded s1 false rid
    | Except.ok (_, s2) =>
      if forceFail then TryResult.failure AnalyzeError.internalError s2 true rid
      else
        let s3 := { s2 with execCount := s2.execCount + 1 }
        match effect with
        | ExecResult.fail e => TryResult.failure e s3 true rid
        | ExecResult.ok resp =>
          if commitFails then TryResult.failure AnalyzeError.internalError s3 true rid
          else
            match rid with
            | some i =>
                let s4 := ledgerComplete s3 i resp
                TryResult.success resp { s4 with meals := s4.meals + 1 }
            | none => TryResult.success resp { s3 with meals := s3.meals + 1 }

/-- One submission of `analyze_meal` (main.py lines 493-1025) after input
validation: the idempotency replay pre-check (lines 579-594), the quota
pre-check (lines 604-622), then the `try` body with the `except` block
running `compensate` before the error is surfaced. -/
def analyzeMeal (user : UserRow) (now : Int) (day : Nat) (key : Option String)
    (forceFail : Bool) (effect : ExecResult) (commitFails : Bool)
    (s0 : AnalyzeState) : AnalyzeOutcome × AnalyzeState :=
  let uid := user.id
  let limit := getUserDailyLimit user now
  let pre : Option (AnalyzeOutcome × AnalyzeState) :=
    match key with
    | none => none
    | some k =>
      match findRequest s0 uid k with
      | none => none
      | some r =>
          if r.status == LedgerStatus.completed && r.responseJson.isSome then
            some (AnalyzeOutcome.ok (r.responseJson.getD ""), s0)
          else
            some (AnalyzeOutcome.err AnalyzeError.idempotencyConflict, s0)
  match pre with
  | some out => out
  | none =>
    if usageOf s0 uid day ≥ limit then
      (AnalyzeOutcome.err AnalyzeError.quotaExceeded, s0)
    else
      match tryBody uid day limit key forceFail effect commitFails s0 with
      | TryResult.replay resp s => (AnalyzeOutcome.ok resp, s)
      | TryResult.success resp s => (AnalyzeOutcome.ok resp, s)
      | TryResult.failure e s inc rid =>
          (AnalyzeOutcome.err e, compensate uid day inc rid s)

/-! ## payments.py : reconciliation resolver state

The `payment_webhook_events` ledger, the `yookassa_payments` mapping, the
relevant slice of `users`, the analytics `events` table rows of type
`payment_succeeded`, and the in-process `_webhook_dedupe_memory` set.
`extensions` counts applied subscription extensions (the `UPDATE users`
that moves active-until forward); `providerCalls` counts calls to
`_fetch_yookassa_payment`. -/

/-- Status column of a `payment_webhook_events` row. -/
inductive EventStatus
  | processing
  | completed
deriving DecidableEq, Repr

/-- A row of the `payment_webhook_events` ledger. -/
structure EventRow where
  dedupeKey : String
  status : EventStatus
  eventType : String
deriving DecidableEq, Repr

/-- A row of the `yookassa_payments` mapping table. -/
structure PaymentRow where
  paymentId : String
  userId : String
  status : String
deriving DecidableEq, Repr

/-- The subscription slice of a `users` row the resolver reads and writes. -/
structure UserSub where
  status : String
  activeUntil : Option Int
deriving DecidableEq, Repr

/-- The mutable store touched by the payment reconciliation resolver. -/
structure PayState where
  events : List EventRow
  payments : List PaymentRow
  users : List (String × UserSub)
  analyticsSuccess : List (String × String)
  memory : List String
  extensions : Nat
  providerCalls : Nat
deriving DecidableEq, Repr

/-- Ledger lookup by dedupe key. -/
def eventsFind (s : PayState) (k : String) : Option EventRow :=
  s.events.find? (fun e => e.dedupeKey == k)

/-- The `UPDATE payment_webhook_events SET status = 'completed' WHERE
dedupe_key = $1` step. -/
def eventsMarkCompleted (s : PayState) (k : String) : PayState :=
  { s with
      events := s.events.map (fun e =>
        if e.dedupeKey == k then { e with status := EventStatus.completed } else e) }

/-- The rollback `DELETE FROM payment_webhook_events WHERE dedupe_key = $1
AND status = 'processing'` in the exception handlers. -/
def eventsDeleteProcessing (s : PayState) (k : String) : PayState :=
  { s with
      events := s.events.filter (fun e =>
        !(e.dedupeKey == k && e.status == EventStatus.processing)) }

/-- The `UPDATE yookassa_payments SET status = $2 WHERE payment_id = $1`
step (keyed by payment id alone). -/
def mappingSetStatus (s : PayState) (pid st : String) : PayState :=
  { s with
      payments := s.payments.map (fun p =>
        if p.paymentId == pid then { p with status := st } else p) }

/-- Users-table lookup by id. -/
def usersFind (s : PayState) (uid : String) : Option UserSub :=
  (s.users.find? (fun e => e.1 == uid)).map (fun e => e.2)

/-- The subscription extension `UPDATE users SET subscription_status =
'active', subscription_active_until = $2`; this is the effect counted by
`extensions`. -/
def usersExtend (s : PayState) (uid : String) (newUntil : Int) : PayState :=
  { s with
      users := s.users.map (fun e =>
        if e.1 == uid then (e.1, ⟨"active", some newUntil⟩) else e),
      extensions := s.extensions + 1 }

/-- Embeds `_resolve_user_id_for_payment` (payments.py lines 265-285): a
non-empty metadata `user_id` wins, else the mapping row recovers the
owner. -/
def resolveUserIdForPayment (s : PayState) (metadataUserId : Option String)
    (pid : Option String) : Option String :=
  match metadataUserId with
  | some u =>
      if !(u == "") then some u
      else
        match pid with
        | some p => (s.payments.find? (fun row => row.paymentId == p)).map
            (fun row => row.userId)
        | none => none
  | none =>
      match pid with
      | some p => (s.payments.find? (fun row => row.paymentId == p)).map
          (fun row => row.userId)
      | none => none

/-- Embeds `_has_local_payment_success_signal` (payments.py lines 565-609):
an owned mapping row with status `succeeded`, a `completed` ledger row for
the payment-success dedupe key, or a `payment_succeeded` analytics event
for this owner and payment. -/
def hasLocalPaymentSuccessSignal (h : String → String) (s : PayState)
    (uid pid : String) : Bool :=
  (match s.payments.find? (fun p => p.paymentId == pid && p.userId == uid) with
   | some p => p.status == "succeeded"
   | none => false)
  || (s.events.find? (fun e =>
        e.dedupeKey == paymentSuccessDedupeKey h pid
          && e.status == EventStatus.completed)).isSome
  || (s.analyticsSuccess.find? (fun a => a.1 == uid && a.2 == pid)).isSome

/-- Outcome of one webhook delivery of a successful payment event. -/
inductive WebhookResult
  | okDuplicate
  | okApplied
  | errResolve
deriving DecidableEq, Repr

/-- The webhook handler's success branch for a verified `payment.succeeded`
delivery (payments.py lines 1123-1351): in-memory dedupe short-circuit,
unique insert of the `processing` ledger row (a uniqueness violation
acknowledges as a duplicate), owner resolution, subscription extension per
`webhookNewActiveUntil`, mapping update, ledger completion, memory add.
On a resolution failure the transaction rolls back and the handler deletes
the `processing` row (the dependency-override test branch at lines
1197-1215 is out of scope). -/
def webhookApplySuccess (k : String) (pid : Option String)
    (metadataUserId : Option String) (now dur : Int) (s : PayState) :
    WebhookResult × PayState :=
  if s.memory.contains k then (WebhookResult.okDuplicate, s)
  else
    match eventsFind s k with
    | some _ => (WebhookResult.okDuplicate, s)
    | none =>
      let s1 := { s with events := ⟨k, EventStatus.processing, "payment.succeeded"⟩ :: s.events }
      match resolveUserIdForPayment s1 metadataUserId pid with
      | none => (WebhookResult.errResolve, eventsDeleteProcessing s1 k)
      | some uid =>
        match usersFind s1 uid with
        | none => (WebhookResult.errResolve, eventsDeleteProcessing s1 k)
        | some sub =>
          let s2 := usersExtend s1 uid (webhookNewActiveUntil sub.activeUntil now dur)
          let s3 :=
            match pid with
            | some p => mappingSetStatus s2 p "succeeded"
            | none => s2
          let s4 := { s3 with analyticsSuccess := (uid, pid.getD "") :: s3.analyticsSuccess }
          let s5 := eventsMarkCompleted s4 k
          (WebhookResult.okApplied, { s5 with memory := k :: s5.memory })

/-- The refresh handler's apply step once the provider confirms success
(payments.py lines 852-1002): `ON CONFLICT DO NOTHING` insert of the
ledger row; the inserting caller extends the subscription per
`refreshNewActiveUntil`, marks the mapping `succeeded` and completes the
ledger row; a losing caller only marks the mapping `succeeded`. Returns
`false` with the rolled-back state when the user row is missing (the
re-raised provider error). -/
def refreshApplySuccess (h : String → String) (uid pid : String) (now dur : Int)
    (s : PayState) : Bool × PayState :=
  match eventsFind s (paymentSuccessDedupeKey h pid) with
  | some _ => (true, mappingSetStatus s pid "succeeded")
  | none =>
    let s1 := { s with
        events := ⟨paymentSuccessDedupeKey h pid, EventStatus.processing,
          "payment.refresh"⟩ :: s.events }
    match usersFind s1 uid with
    | none => (false, eventsDeleteProcessing s1 (paymentSuccessDedupeKey h pid))
    | some sub =>
      let s2 := usersExtend s1 uid (refreshNewActiveUntil sub.activeUntil now dur)
      let s3 := mappingSetStatus s2 pid "succeeded"
      let s4 := { s3 with analyticsSuccess := (uid, pid) :: s3.analyticsSuccess }
      (true, eventsMarkCompleted s4 (paymentSuccessDedupeKey h pid))

/-- Outcome of one `refresh_yookassa_payment` request. -/
inductive RefreshOutcome
  | notFound
  | okSubscription
  | provError
deriving DecidableEq, Repr

/-- Embeds `refresh_yookassa_payment` (payments.py lines 793-1038):
ownership check against the mapping, provider fetch (`fetch = none` is a
PAYMENT_PROVIDER_ERROR from `_fetch_yookassa_payment`, falling back to the
local success signal), then the success / pending / canceled dispatch. -/
def refreshYookassaPayment (h : String → String) (uid pid : String)
    (fetch : Option ProviderPayment) (now dur : Int) (s : PayState) :
    RefreshOutcome × PayState :=
  match s.payments.find? (fun p => p.paymentId == pid && p.userId == uid) with
  | none => (RefreshOutcome.notFound, s)
  | some _ =>
    let s1 := { s with providerCalls := s.providerCalls + 1 }
    match fetch with
    | none =>
        if hasLocalPaymentSuccessSignal h s1 uid pid then
          (RefreshOutcome.okSubscription, s1)
        else (RefreshOutcome.provError, s1)
    | some p =>
        if isSuccessfulProviderPaymentForRefresh p then
          let r := refreshApplySuccess h uid pid now dur s1
          if r.1 then (RefreshOutcome.okSubscription, r.2)
          else (RefreshOutcome.provError, r.2)
        else if p.status == "pending" || p.status == "waiting_for_capture" then
          (RefreshOutcome.okSubscription, mappingSetStatus s1 pid "created")
        else if p.status == "canceled" then
          (RefreshOutcome.provError, mappingSetStatus s1 pid "canceled")
        else (RefreshOutcome.provError, s1)

/-! ## Shared list lemmas -/

/-- A map whose function leaves the search predicate invariant commutes
with `find?`. -/
theorem find?_map_of_pred_invariant {α : Type} (f : α → α) (p : α → Bool)
    (hf : ∀ a, p (f a) = p a) (l : List α) :
    (l.map f).find? p = (l.find? p).map f := by
  induction l with
  | nil => rfl
  | cons a l ih =>
      by_cases h : p a = true
      · simp [List.find?, hf, h]
      · have h' : p a = false := by
          cases hpa : p a
          · rfl
          · exact absurd hpa h
        simp [List.find?, hf, h', ih]

/-- A map that fixes every element of the list is the identity. -/
theorem map_id_of_mem {α : Type} (f : α → α) (l : List α)
    (h : ∀ a ∈ l, f a = a) : l.map f = l := by
  induction l with
  | nil => rfl
  | cons a l ih =>
      simp only [List.map_cons]
      rw [h a (List.mem_cons_self a l), ih (fun b hb => h b (List.mem_cons_of_mem a hb))]

/-! ## C5 : monotonic subscription extension -/

/-- C5: on both the refresh path and the webhook path, the new active-until
equals max(current active-until, now) plus the grant duration; an absent
(free/expired) active-until yields now plus the duration; with a
non-negative duration the value never moves backwards. -/
theorem extension_monotonic_max_rule (old : Option Int) (now dur : Int)
    (hdur : 0 ≤ dur) :
    refreshNewActiveUntil old now dur = max (old.getD now) now + dur
    ∧ webhookNewActiveUntil old now dur = refreshNewActiveUntil old now dur
    ∧ (old = none → refreshNewActiveUntil old now dur = now + dur)
    ∧ (∀ t, old = some t → t ≤ refreshNewActiveUntil old now dur)
    ∧ now ≤ refreshNewActiveUntil old now dur := by
  have hw : webhookNewActiveUntil old now dur = refreshNewActiveUntil old now dur := rfl
  rcases old with _ | t
  · refine ⟨?_, hw, fun _ => rfl, by simp, ?_⟩
    · show now + dur = max now now + dur
      rw [max_self]
    · show now ≤ now + dur
      omega
  · have hbase : refreshNewActiveUntil (some t) now dur = max t now + dur := by
      show (if t > now then t else now) + dur = max t now + dur
      rcases max_cases t now with ⟨h1, h2⟩ | ⟨h1, h2⟩ <;> rw [h1] <;> split_ifs <;> omega
    refine ⟨by simpa using hbase, hw, by simp, ?_, ?_⟩
    · intro t' ht'
      cases ht'
      rw [hbase]
      have := le_max_left t now
      omega
    · rw [hbase]
      have := le_max_right t now
      omega

/-- Witness for C5 at a concrete subscription. -/
theorem extension_monotonic_max_rule_witness :
    (0 : Int) ≤ 30
    ∧ (refreshNewActiveUntil (some 100) 50 30 = max ((some (100 : Int)).getD 50) 50 + 30
       ∧ webhookNewActiveUntil (some 100) 50 30 = refreshNewActiveUntil (some 100) 50 30
       ∧ ((some (100 : Int)) = none → refreshNewActiveUntil (some 100) 50 30 = 50 + 30)
       ∧ (∀ t, (some (100 : Int)) = some t → t ≤ refreshNewActiveUntil (some 100) 50 30)
       ∧ (50 : Int) ≤ refreshNewActiveUntil (some 100) 50 30) :=
  ⟨by decide, extension_monotonic_max_rule (some 100) 50 30 (by decide)⟩

/-! ## C6 : confirmation-success predicates (corrected) -/

/-- C6 counterexample: a provider payment object with status `succeeded`
but with `paid` and `captured` absent IS treated as success by the refresh
predicate, and the webhook predicate accepts an event named
`payment.succeeded` even when the object's status is not `succeeded`. -/
theorem success_predicate_absent_fields_cex :
    isSuccessfulProviderPaymentForRefresh ⟨"succeeded", none, none⟩ = true
    ∧ isSuccessfulPaymentEvent "payment.succeeded" ⟨"pending", none, none⟩ = true := by
  constructor <;> rfl

/-- C6 amended: the refresh-side predicate holds iff status is `succeeded`
and neither `paid` nor `captured` is explicitly false (absent fields do not
block); the webhook-side predicate holds iff the event is named
`payment.succeeded`, or status is `succeeded` with `paid` and `captured`
both explicitly true. -/
theorem success_predicates_characterization (e : String) (p : ProviderPayment) :
    (isSuccessfulProviderPaymentForRefresh p = true ↔
      (p.status = "succeeded" ∧ p.paid ≠ some false ∧ p.captured ≠ some false))
    ∧ (isSuccessfulPaymentEvent e p = true ↔
      (e = "payment.succeeded"
        ∨ (p.status = "succeeded" ∧ p.paid = some true ∧ p.captured = some true))) := by
  constructor
  · have hb : isSuccessfulProviderPaymentForRefresh p =
        ((p.status == "succeeded") && !(p.paid == some false)
          && !(p.captured == some false)) := by
      unfold isSuccessfulProviderPaymentForRefresh
      cases hbs : (p.status == "succeeded") <;>
        cases hbp : (p.paid == some false) <;>
          cases hbc : (p.captured == some false) <;> simp [hbs, hbp, hbc]
    rw [hb]
    simp [and_assoc]
  · have hb : isSuccessfulPaymentEvent e p =
        ((e == "payment.succeeded")
          || ((p.status == "succeeded") && (p.paid == some true)
                && (p.captured == some true))) := by
      unfold isSuccessfulPaymentEvent
      cases hbe : (e == "payment.succeeded") <;> simp [hbe]
    rw [hb]
    simp [and_assoc]

/-! ## C8 : development bypass inert in production -/

/-- C8: in production mode, webhook verification succeeds iff the client IP
passes the allowlist check and the Basic-auth shared credentials match —
the development bypass branch can never fire, regardless of the bypass
flag or the proxy headers. -/
theorem webhook_bypass_inert_in_production (env : WebhookEnv)
    (ipMatch : String → String → Bool) (hprod : env.isProduction = true) :
    verifyYookassaWebhook env ipMatch = true ↔
      (clientIpAllowed env ipMatch = true ∧ env.authOk = true) := by
  cases hip : clientIpAllowed env ipMatch <;> cases ha : env.authOk <;>
    simp [verifyYookassaWebhook, paymentsWebhookDevBypassEnabled, hprod, hip, ha]

/-- Witness for C8: a production environment with the bypass flag set and a
proxy header present still requires IP allowlist plus Basic auth. -/
theorem webhook_bypass_inert_in_production_witness :
    (WebhookEnv.mk true true [] none true true).isProduction = true
    ∧ (verifyYookassaWebhook (WebhookEnv.mk true true [] none true true)
          (fun _ _ => false) = true ↔
        (clientIpAllowed (WebhookEnv.mk true true [] none true true)
            (fun _ _ => false) = true
          ∧ (WebhookEnv.mk true true [] none true true).authOk = true)) :=
  ⟨rfl, webhook_bypass_inert_in_production _ _ rfl⟩

/-! ## C9 : ownership verified before any provider work -/

/-- C9: when no `yookassa_payments` row pairs the payment id with the
calling user, the refresh request fails NOT_FOUND with the state untouched
— in particular the provider-call counter does not move, so the provider
is never queried. -/
theorem refresh_ownership_checked_before_provider (h : String → String)
    (uid pid : String) (fetch : Option ProviderPayment) (now dur : Int)
    (s : PayState)
    (hnone : s.payments.find? (fun p => p.paymentId == pid && p.userId == uid) = none) :
    refreshYookassaPayment h uid pid fetch now dur s = (RefreshOutcome.notFound, s)
    ∧ (refreshYookassaPayment h uid pid fetch now dur s).2.providerCalls
        = s.providerCalls := by
  have hmain : refreshYookassaPayment h uid pid fetch now dur s
      = (RefreshOutcome.notFound, s) := by
    unfold refreshYookassaPayment
    rw [hnone]
  exact ⟨hmain, by rw [hmain]⟩

/-- Witness for C9: a state whose mapping records the payment for a
different owner. -/
theorem refresh_ownership_checked_before_provider_witness :
    (PayState.mk [] [⟨"p1", "other", "created"⟩] [] [] [] 0 0).payments.find?
        (fun p => p.paymentId == "p1" && p.userId == "u1") = none
    ∧ (refreshYookassaPayment (fun x => x) "u1" "p1" none 0 30
          (PayState.mk [] [⟨"p1", "other", "created"⟩] [] [] [] 0 0)
        = (RefreshOutcome.notFound, PayState.mk [] [⟨"p1", "other", "created"⟩] [] [] [] 0 0)
      ∧ (refreshYookassaPayment (fun x => x) "u1" "p1" none 0 30
            (PayState.mk [] [⟨"p1", "other", "created"⟩] [] [] [] 0 0)).2.providerCalls
          = (PayState.mk [] [⟨"p1", "other", "created"⟩] [] [] [] 0 0).providerCalls) :=
  ⟨by rfl, refresh_ownership_checked_before_provider _ _ _ _ _ _ _ (by rfl)⟩

/-! ## C7 : local-authority check is a fallback, not a fast path (corrected) -/

/-- C7 counterexample: a state whose payment mapping already records
success for the payment ("local authority shows success"), yet a refresh
with a reachable provider still queries the provider (the call counter
moves from 0 to 1): the refresh path does NOT check local authority
first. -/
theorem refresh_calls_provider_despite_local_success_cex :
    hasLocalPaymentSuccessSignal (fun x => x)
        (PayState.mk [] [⟨"p1", "u1", "succeeded"⟩] [("u1", ⟨"active", some 100⟩)] [] [] 0 0)
        "u1" "p1" = true
    ∧ (refreshYookassaPayment (fun x => x) "u1" "p1"
          (some ⟨"pending", none, none⟩) 0 30
          (PayState.mk [] [⟨"p1", "u1", "succeeded"⟩] [("u1", ⟨"active", some 100⟩)] [] [] 0 0)).2.providerCalls
        = 1 := by
  constructor <;> rfl

/-- The refresh apply step never touches the provider-call counter. -/
theorem refreshApplySuccess_providerCalls (h : String → String) (uid pid : String)
    (now dur : Int) (s : PayState) :
    (refreshApplySuccess h uid pid now dur s).2.providerCalls = s.providerCalls := by
  unfold refreshApplySuccess
  cases hev : eventsFind s (paymentSuccessDedupeKey h pid) with
  | none =>
      simp only [hev]
      cases husers : usersFind
          { s with
              events := ⟨paymentSuccessDedupeKey h pid, EventStatus.processing,
                "payment.refresh"⟩ :: s.events } uid with
      | none => simp [husers, eventsDeleteProcessing]
      | some sub => simp [husers, usersExtend, mappingSetStatus, eventsMarkCompleted]
  | some r => simp [hev, mappingSetStatus]

/-- C7 amended: after the ownership check the refresh path always queries
the provider (the call counter increments on every owned refresh); the
ledger/mapping local-success check is consulted only as a fallback when
the provider fetch fails with a provider error, in which case the current
subscription state is returned; without a local success signal the
provider error is surfaced. -/
theorem refresh_local_fallback_only_on_provider_error (h : String → String)
    (uid pid : String) (fetch : Option ProviderPayment) (now dur : Int)
    (s : PayState) (row : PaymentRow)
    (hown : s.payments.find? (fun p => p.paymentId == pid && p.userId == uid) = some row) :
    (refreshYookassaPayment h uid pid fetch now dur s).2.providerCalls
        = s.providerCalls + 1
    ∧ (fetch = none →
        hasLocalPaymentSuccessSignal h s uid pid = true →
        refreshYookassaPayment h uid pid fetch now dur s
          = (RefreshOutcome.okSubscription,
             { s with providerCalls := s.providerCalls + 1 }))
    ∧ (fetch = none →
        hasLocalPaymentSuccessSignal h s uid pid = false →
        refreshYookassaPayment h uid pid fetch now dur s
          = (RefreshOutcome.provError,
             { s with providerCalls := s.providerCalls + 1 })) := by
  have hsig : ∀ b, hasLocalPaymentSuccessSignal h s uid pid = b →
      hasLocalPaymentSuccessSignal h
        { s with providerCalls := s.providerCalls + 1 } uid pid = b := by
    intro b hb
    simpa [hasLocalPaymentSuccessSignal] using hb
  refine ⟨?_, ?_, ?_⟩
  · unfold refreshYookassaPayment
    rw [hown]
    rcases fetch with _ | p
    · simp only []
      split <;> rfl
    · simp only []
      split
      · have hpc := refreshApplySuccess_providerCalls h uid pid now dur
            { s with providerCalls := s.providerCalls + 1 }
        cases hr : refreshApplySuccess h uid pid now dur
            { s with providerCalls := s.providerCalls + 1 } with
        | mk ok st =>
          rw [hr] at hpc
          cases ok <;> simp [hr] <;> simpa using hpc
      · split
        · rfl
        · split <;> rfl
  · intro hf hloc
    subst hf
    unfold refreshYookassaPayment
    rw [hown]
    simp only [hsig true hloc, if_pos]
  · intro hf hloc
    subst hf
    unfold refreshYookassaPayment
    rw [hown]
    simp [hsig false hloc]

/-- Witness for C7's amended theorem: owned payment, provider outage, local
success signal present. -/
theorem refresh_local_fallback_only_on_provider_error_witness :
    (PayState.mk [] [⟨"p1", "u1", "succeeded"⟩] [] [] [] 0 0).payments.find?
        (fun p => p.paymentId == "p1" && p.userId == "u1")
        = some ⟨"p1", "u1", "succeeded"⟩
    ∧ ((refreshYookassaPayment (fun x => x) "u1" "p1" none 0 30
          (PayState.mk [] [⟨"p1", "u1", "succeeded"⟩] [] [] [] 0 0)).2.providerCalls
        = (PayState.mk [] [⟨"p1", "u1", "succeeded"⟩] [] [] [] 0 0).providerCalls + 1
      ∧ (none = (none : Option ProviderPayment) →
          hasLocalPaymentSuccessSignal (fun x => x)
              (PayState.mk [] [⟨"p1", "u1", "succeeded"⟩] [] [] [] 0 0) "u1" "p1" = true →
          refreshYookassaPayment (fun x => x) "u1" "p1" none 0 30
              (PayState.mk [] [⟨"p1", "u1", "succeeded"⟩] [] [] [] 0 0)
            = (RefreshOutcome.okSubscription,
               { PayState.mk [] [⟨"p1", "u1", "succeeded"⟩] [] [] [] 0 0 with
                   providerCalls :=
                     (PayState.mk [] [⟨"p1", "u1", "succeeded"⟩] [] [] [] 0 0).providerCalls + 1 }))
      ∧ (none = (none : Option ProviderPayment) →
          hasLocalPaymentSuccessSignal (fun x => x)
              (PayState.mk [] [⟨"p1", "u1", "succeeded"⟩] [] [] [] 0 0) "u1" "p1" = false →
          refreshYookassaPayment (fun x => x) "u1" "p1" none 0 30
              (PayState.mk [] [⟨"p1", "u1", "succeeded"⟩] [] [] [] 0 0)
            = (RefreshOutcome.provError,
               { PayState.mk [] [⟨"p1", "u1", "succeeded"⟩] [] [] [] 0 0 with
                   providerCalls :=
                     (PayState.mk [] [⟨"p1", "u1", "succeeded"⟩] [] [] [] 0 0).providerCalls + 1 }))) :=
  ⟨by rfl, refresh_local_fallback_only_on_provider_error _ _ _ _ _ _ _ _ (by rfl)⟩

/-! ## C2 : webhook/refresh convergence on one ledger row -/

/-- Number of `payment_webhook_events` rows carrying a dedupe key. -/
def eventRowCount (s : PayState) (k : String) : Nat :=
  (s.events.filter (fun e => e.dedupeKey == k)).length

/-- An absent dedupe key means no ledger row carries it. -/
theorem eventRowCount_of_fresh (s : PayState) (k : String)
    (hfresh : eventsFind s k = none) : eventRowCount s k = 0 := by
  unfold eventRowCount
  rw [List.filter_eq_nil_iff.mpr (List.find?_eq_none.mp hfresh)]
  rfl

/-- Explicit form of a webhook application on a state where the dedupe key
is new, the in-memory cache silent, metadata resolution succeeds and the
owner exists. -/
theorem webhookApplySuccess_fresh (k pid uid : String) (now dur : Int)
    (s0 : PayState) (sub : UserSub)
    (hmem : s0.memory.contains k = false)
    (hfresh : eventsFind s0 k = none)
    (huid : uid ≠ "")
    (husers : usersFind s0 uid = some sub) :
    webhookApplySuccess k (some pid) (some uid) now dur s0
      = (WebhookResult.okApplied,
         { events := ⟨k, EventStatus.completed, "payment.succeeded"⟩ :: s0.events,
           payments := s0.payments.map (fun p =>
             if p.paymentId == pid then { p with status := "succeeded" } else p),
           users := s0.users.map (fun e =>
             if e.1 == uid then
               (e.1, ⟨"active", some (webhookNewActiveUntil sub.activeUntil now dur)⟩)
             else e),
           analyticsSuccess := (uid, pid) :: s0.analyticsSuccess,
           memory := k :: s0.memory,
           extensions := s0.extensions + 1,
           providerCalls := s0.providerCalls }) := by
  have hbe : (uid == "") = false := by simpa using huid
  have hall : ∀ e ∈ s0.events, (e.dedupeKey == k) = false := fun e he =>
    Bool.eq_false_iff.mpr (List.find?_eq_none.mp hfresh e he)
  have hmap : s0.events.map (fun e =>
      if e.dedupeKey == k then { e with status := EventStatus.completed } else e)
        = s0.events :=
    map_id_of_mem _ _ (fun e he => by simp [hall e he])
  unfold webhookApplySuccess
  rw [hmem]
  simp only [Bool.false_eq_true, if_false]
  rw [hfresh]
  unfold resolveUserIdForPayment
  simp only [hbe, Bool.not_false, if_true]
  have husers' : usersFind
      { s0 with events := ⟨k, EventStatus.processing, "payment.succeeded"⟩ :: s0.events }
        uid = some sub := by
    simpa [usersFind] using husers
  rw [husers']
  unfold usersExtend mappingSetStatus eventsMarkCompleted
  simp only [Option.getD_some]
  congr 1
  simp only [List.map_cons, beq_self_eq_true, if_true, hmap]

/-- Explicit form of a refresh application when the provider confirmed
success, the dedupe key is new and the owner exists. -/
theorem refreshApplySuccess_fresh (h : String → String) (uid pid : String)
    (now dur : Int) (s0 : PayState) (sub : UserSub)
    (hfresh : eventsFind s0 (paymentSuccessDedupeKey h pid) = none)
    (husers : usersFind s0 uid = some sub) :
    refreshApplySuccess h uid pid now dur s0
      = (true,
         { events := ⟨paymentSuccessDedupeKey h pid, EventStatus.completed,
             "payment.refresh"⟩ :: s0.events,
           payments := s0.payments.map (fun p =>
             if p.paymentId == pid then { p with status := "succeeded" } else p),
           users := s0.users.map (fun e =>
             if e.1 == uid then
               (e.1, ⟨"active", some (refreshNewActiveUntil sub.activeUntil now dur)⟩)
             else e),
           analyticsSuccess := (uid, pid) :: s0.analyticsSuccess,
           memory := s0.memory,
           extensions := s0.extensions + 1,
           providerCalls := s0.providerCalls }) := by
  have hall : ∀ e ∈ s0.events, (e.dedupeKey == paymentSuccessDedupeKey h pid) = false :=
    fun e he => Bool.eq_false_iff.mpr (List.find?_eq_none.mp hfresh e he)
  have hmap : s0.events.map (fun e =>
      if e.dedupeKey == paymentSuccessDedupeKey h pid then
        { e with status := EventStatus.completed } else e)
        = s0.events :=
    map_id_of_mem _ _ (fun e he => by simp [hall e he])
  unfold refreshApplySuccess
  rw [hfresh]
  simp only []
  have husers' : usersFind
      { s0 with events := ⟨paymentSuccessDedupeKey h pid, EventStatus.processing,
          "payment.refresh"⟩ :: s0.events } uid = some sub := by
    simpa [usersFind] using husers
  rw [husers']
  unfold usersExtend mappingSetStatus eventsMarkCompleted
  simp only [Option.getD_some]
  congr 1
  simp only [List.map_cons, beq_self_eq_true, if_true, hmap]

/-- A webhook delivery whose dedupe key already has a ledger row is
acknowledged as a duplicate without touching the state. -/
theorem webhookApplySuccess_duplicate (k : String) (pid muid : Option String)
    (now dur : Int) (s : PayState) (r : EventRow)
    (hmem : s.memory.contains k = false)
    (hdup : eventsFind s k = some r) :
    webhookApplySuccess k pid muid now dur s = (WebhookResult.okDuplicate, s) := by
  unfold webhookApplySuccess
  rw [hmem]
  simp only [Bool.false_eq_true, if_false]
  rw [hdup]

/-- A refresh whose dedupe key already has a ledger row only refreshes the
mapping status; the ledger and the subscription are untouched. -/
theorem refreshApplySuccess_duplicate (h : String → String) (uid pid : String)
    (now dur : Int) (s : PayState) (r : EventRow)
    (hdup : eventsFind s (paymentSuccessDedupeKey h pid) = some r) :
    refreshApplySuccess h uid pid now dur s = (true, mappingSetStatus s pid "succeeded") := by
  unfold refreshApplySuccess
  rw [hdup]

/-- C2: the webhook path and the refresh path derive the same dedupe key
for a payment-success event — a hash of a source string built from the
payment identifier alone — and running the webhook application and the
refresh application in either order on a state where the key is new yields
exactly one ledger row for that key, in status `completed`, and exactly
one applied subscription extension. -/
theorem payment_webhook_refresh_convergence (h : String → String)
    (payload : WebhookPayload) (pid uid : String) (now dur : Int)
    (s0 : PayState) (sub : UserSub)
    (hev : payload.event = "payment.succeeded")
    (hpid : payload.paymentId = pid)
    (hne : pid ≠ "")
    (huid : uid ≠ "")
    (hfresh : eventsFind s0 (paymentSuccessDedupeKey h pid) = none)
    (hmem : s0.memory.contains (paymentSuccessDedupeKey h pid) = false)
    (husers : usersFind s0 uid = some sub) :
    webhookDedupeKey h payload = paymentSuccessDedupeKey h pid
    ∧ (eventRowCount
         (refreshApplySuccess h uid pid now dur
           (webhookApplySuccess (webhookDedupeKey h payload) (some pid) (some uid)
             now dur s0).2).2 (paymentSuccessDedupeKey h pid) = 1
       ∧ (∃ r, eventsFind
             (refreshApplySuccess h uid pid now dur
               (webhookApplySuccess (webhookDedupeKey h payload) (some pid) (some uid)
                 now dur s0).2).2 (paymentSuccessDedupeKey h pid) = some r
           ∧ r.status = EventStatus.completed)
       ∧ (refreshApplySuccess h uid pid now dur
           (webhookApplySuccess (webhookDedupeKey h payload) (some pid) (some uid)
             now dur s0).2).2.extensions = s0.extensions + 1)
    ∧ (eventRowCount
         (webhookApplySuccess (webhookDedupeKey h payload) (some pid) (some uid)
           now dur
           (refreshApplySuccess h uid pid now dur s0).2).2
         (paymentSuccessDedupeKey h pid) = 1
       ∧ (∃ r, eventsFind
             (webhookApplySuccess (webhookDedupeKey h payload) (some pid) (some uid)
               now dur
               (refreshApplySuccess h uid pid now dur s0).2).2
             (paymentSuccessDedupeKey h pid) = some r
           ∧ r.status = EventStatus.completed)
       ∧ (webhookApplySuccess (webhookDedupeKey h payload) (some pid) (some uid)
           now dur
           (refreshApplySuccess h uid pid now dur s0).2).2.extensions
         = s0.extensions + 1) := by
  have hbe : (pid == "") = false := by simpa using hne
  have hkey : webhookDedupeKey h payload = paymentSuccessDedupeKey h pid := by
    unfold webhookDedupeKey paymentSuccessDedupeKey
    rw [hev, hpid]
    simp [hbe]
  have hallP : ∀ e ∈ s0.events, ¬ (e.dedupeKey == paymentSuccessDedupeKey h pid) :=
    List.find?_eq_none.mp hfresh
  have htail : s0.events.filter
      (fun e => e.dedupeKey == paymentSuccessDedupeKey h pid) = [] :=
    List.filter_eq_nil_iff.mpr hallP
  refine ⟨hkey, ?_, ?_⟩
  · rw [hkey, webhookApplySuccess_fresh (paymentSuccessDedupeKey h pid) pid uid
      now dur s0 sub hmem hfresh huid husers]
    simp only []
    rw [refreshApplySuccess_duplicate h uid pid now dur _
      ⟨paymentSuccessDedupeKey h pid, EventStatus.completed, "payment.succeeded"⟩
      (by simp [eventsFind, List.find?])]
    refine ⟨?_, ?_, ?_⟩
    · simp [eventRowCount, mappingSetStatus, List.filter, htail]
    · exact ⟨⟨paymentSuccessDedupeKey h pid, EventStatus.completed, "payment.succeeded"⟩,
        by simp [eventsFind, mappingSetStatus, List.find?], rfl⟩
    · simp [mappingSetStatus]
  · rw [hkey, refreshApplySuccess_fresh h uid pid now dur s0 sub hfresh husers]
    simp only []
    rw [webhookApplySuccess_duplicate (paymentSuccessDedupeKey h pid) (some pid)
      (some uid) now dur _
      ⟨paymentSuccessDedupeKey h pid, EventStatus.completed, "payment.refresh"⟩
      (by simpa using hmem)
      (by simp [eventsFind, List.find?])]
    refine ⟨?_, ?_, ?_⟩
    · simp [eventRowCount, List.filter, htail]
    · exact ⟨⟨paymentSuccessDedupeKey h pid, EventStatus.completed, "payment.refresh"⟩,
        by simp [eventsFind, List.find?], rfl⟩
    · rfl

/-- Concrete hash stand-in for the C2 witness. -/
def c2Hash : String → String := fun x => x

/-- Concrete webhook payload for the C2 witness. -/
def c2Payload : WebhookPayload := ⟨"payment.succeeded", "p1", none, "succeeded", "t0"⟩

/-- Concrete state for the C2 witness: empty ledger, one created mapping
row, one free user. -/
def c2State : PayState :=
  ⟨[], [⟨"p1", "u1", "created"⟩], [("u1", ⟨"free", none⟩)], [], [], 0, 0⟩

/-- Concrete subscription slice for the C2 witness. -/
def c2Sub : UserSub := ⟨"free", none⟩

/-- Witness for C2 at a concrete payment, owner and state. -/
theorem payment_webhook_refresh_convergence_witness :
    (c2Payload.event = "payment.succeeded"
      ∧ c2Payload.paymentId = "p1"
      ∧ ("p1" : String) ≠ ""
      ∧ ("u1" : String) ≠ ""
      ∧ eventsFind c2State (paymentSuccessDedupeKey c2Hash "p1") = none
      ∧ c2State.memory.contains (paymentSuccessDedupeKey c2Hash "p1") = false
      ∧ usersFind c2State "u1" = some c2Sub)
    ∧ webhookDedupeKey c2Hash c2Payload = paymentSuccessDedupeKey c2Hash "p1"
    ∧ eventRowCount
        (refreshApplySuccess c2Hash "u1" "p1" 0 30
          (webhookApplySuccess (webhookDedupeKey c2Hash c2Payload) (some "p1")
            (some "u1") 0 30 c2State).2).2 (paymentSuccessDedupeKey c2Hash "p1") = 1
    ∧ (webhookApplySuccess (webhookDedupeKey c2Hash c2Payload) (some "p1")
        (some "u1") 0 30
        (refreshApplySuccess c2Hash "u1" "p1" 0 30 c2State).2).2.extensions
      = c2State.extensions + 1 :=
  have t := payment_webhook_refresh_convergence c2Hash c2Payload "p1" "u1" 0 30
    c2State c2Sub rfl rfl (by decide) (by decide) rfl rfl rfl
  ⟨⟨rfl, rfl, by decide, by decide, rfl, rfl, rfl⟩, t.1, t.2.1.1, t.2.2.2.2⟩

/-! ## Usage-counter and ledger lemmas for the analyze pipeline -/

/-- Updating the value column of an association list commutes with the
key lookup. -/
theorem find?_assoc_update {β : Type} (l : List ((Nat × Nat) × β))
    (key : Nat × Nat) (f : β → β) :
    (l.map (fun e => if e.1 == key then (e.1, f e.2) else e)).find?
        (fun e => e.1 == key)
      = (l.find? (fun e => e.1 == key)).map (fun e => (e.1, f e.2)) := by
  induction l with
  | nil => rfl
  | cons a l ih =>
      cases hk : (a.1 == key) with
      | true =>
          rw [List.map_cons, if_pos hk]
          simp [List.find?_cons, hk]
      | false =>
          rw [List.map_cons, if_neg (by simp [hk])]
          rw [List.find?_cons, List.find?_cons]
          simp only [hk]
          exact ih

/-- `usage_daily` lookup after the row-creating insert: the row exists and
holds the previous effective value. -/
theorem usageLookup_ensure (s : AnalyzeState) (uid day : Nat) :
    usageLookup (usageEnsureRow s uid day) uid day = some (usageOf s uid day) := by
  unfold usageEnsureRow
  cases hl : usageLookup s uid day with
  | some v => simp [hl, usageOf]
  | none =>
      simp only [hl, Option.isSome_none, Bool.false_eq_true, if_false]
      unfold usageOf usageLookup
      simp [hl, List.find?]
      unfold usageLookup at hl
      simp [hl]

/-- `usage_daily` lookup after an update of the same row. -/
theorem usageLookup_update (s : AnalyzeState) (uid day : Nat) (f : Int → Int) :
    usageLookup (usageUpdate s uid day f) uid day
      = (usageLookup s uid day).map f := by
  unfold usageLookup usageUpdate
  simp only []
  rw [find?_assoc_update]
  cases hfind : s.usage.find? (fun e => e.1 == (uid, day)) <;> simp [hfind]

/-- `usageOf` only reads the usage column. -/
theorem usageOf_eq_of_usage_eq {s s' : AnalyzeState} (h : s'.usage = s.usage)
    (uid d : Nat) : usageOf s' uid d = usageOf s uid d := by
  unfold usageOf usageLookup
  rw [h]

/-- `findRequest` only reads the ledger. -/
theorem findRequest_eq_of_ledger_eq {s s' : AnalyzeState} (h : s'.ledger = s.ledger)
    (uid : Nat) (k : String) : findRequest s' uid k = findRequest s uid k := by
  unfold findRequest
  rw [h]

/-- Creating the usage row does not touch the ledger. -/
theorem usageEnsureRow_ledger (s : AnalyzeState) (uid d : Nat) :
    (usageEnsureRow s uid d).ledger = s.ledger := by
  unfold usageEnsureRow
  split <;> rfl

/-- Creating the usage row does not touch the executor counter. -/
theorem usageEnsureRow_execCount (s : AnalyzeState) (uid d : Nat) :
    (usageEnsureRow s uid d).execCount = s.execCount := by
  unfold usageEnsureRow
  split <;> rfl

/-- The locked reservation increment raises the effective used count by
exactly one. -/
theorem usageOf_reserve_incr (s : AnalyzeState) (uid d : Nat) :
    usageOf (usageUpdate (usageEnsureRow s uid d) uid d (fun u => u + 1)) uid d
      = usageOf s uid d + 1 := by
  unfold usageOf
  rw [usageLookup_update, usageLookup_ensure]
  rfl

/-- Closed form of the reservation transaction: QUOTA_EXCEEDED at or above
the limit, otherwise an increment of the ensured row. -/
theorem reserveQuota_eq (uid day : Nat) (limit : Int) (s : AnalyzeState) :
    reserveQuota uid day limit s
      = if usageOf s uid day ≥ limit then Except.error ()
        else Except.ok (usageOf s uid day + 1,
          usageUpdate (usageEnsureRow s uid day) uid day (fun u => u + 1)) := by
  unfold reserveQuota
  simp only []
  have h1 : usageOf (usageEnsureRow s uid day) uid day = usageOf s uid day := by
    unfold usageOf
    rw [usageLookup_ensure]
    rfl
  rw [h1, usageOf_reserve_incr]

/-- The compensation decrement floors at zero. -/
theorem usageOf_releaseQuota (s : AnalyzeState) (uid d : Nat) :
    usageOf (releaseQuota uid d s) uid d = max 0 (usageOf s uid d - 1) := by
  unfold releaseQuota usageOf
  rw [usageLookup_update]
  cases hl : usageLookup s uid d with
  | none => simp [hl]
  | some v => simp [hl]

/-- Marking a ledger record failed commutes with the (owner, key) lookup. -/
theorem findRequest_ledgerMarkFailed (s : AnalyzeState) (rid uid : Nat) (k : String) :
    findRequest (ledgerMarkFailed s rid) uid k
      = (findRequest s uid k).map (fun r =>
          if r.id == rid && r.status == LedgerStatus.processing then
            { r with status := LedgerStatus.failed }
          else r) := by
  unfold findRequest ledgerMarkFailed
  exact find?_map_of_pred_invariant _ _
    (fun a => by
      by_cases hc : (a.id == rid && a.status == LedgerStatus.processing) = true
      · simp [hc]
      · simp [hc]) _

/-! ## C1 : ledger dictates the outcome of a replayed submission -/

/-- C1: with a prior attempt recorded under (owner, key): a `completed`
record with a stored result is replayed byte-identically with the state —
including the executor call count and the usage counter — untouched (so
the count stays fixed across any number of replays, third conjunct); a
`processing` or `failed` record yields IDEMPOTENCY_CONFLICT, again with no
quota reservation and no external call. -/
theorem analyze_replay_ledger_dictates_outcome (user : UserRow) (now : Int)
    (day : Nat) (k : String) (forceFail : Bool) (effect : ExecResult)
    (commitFails : Bool) (s0 : AnalyzeState) (r : AnalyzeRequest)
    (hr : findRequest s0 user.id k = some r) :
    (∀ resp, r.status = LedgerStatus.completed → r.responseJson = some resp →
      analyzeMeal user now day (some k) forceFail effect commitFails s0
        = (AnalyzeOutcome.ok resp, s0))
    ∧ (r.status = LedgerStatus.processing ∨ r.status = LedgerStatus.failed →
      analyzeMeal user now day (some k) forceFail effect commitFails s0
        = (AnalyzeOutcome.err AnalyzeError.idempotencyConflict, s0))
    ∧ (∀ n, (fun s => (analyzeMeal user now day (some k) forceFail effect
        commitFails s).2)^[n] s0 = s0) := by
  have hfix : (analyzeMeal user now day (some k) forceFail effect commitFails s0).2
      = s0 := by
    unfold analyzeMeal
    simp only [hr]
    by_cases hc : (r.status == LedgerStatus.completed && r.responseJson.isSome) = true
    · rw [if_pos hc]
    · rw [if_neg hc]
  refine ⟨?_, ?_, ?_⟩
  · intro resp hst hresp
    unfold analyzeMeal
    simp only [hr, hst, hresp]
    rfl
  · intro hst
    unfold analyzeMeal
    simp only [hr]
    rcases hst with hst | hst <;> simp [hst]
  · intro n
    exact Function.iterate_fixed hfix n

/-- Concrete user for the C1 witness. -/
def c1User : UserRow := ⟨7, "free", none, 0⟩

/-- Concrete state for the C1 witness: a completed record with a stored
result under key K1, a failed record under key K2, one executor call. -/
def c1State : AnalyzeState :=
  ⟨[⟨0, 7, "K1", LedgerStatus.completed, some "RESP"⟩,
    ⟨1, 7, "K2", LedgerStatus.failed, none⟩], 2, [((7, 0), 1)], 1, 1⟩

/-- Witness for C1: replaying K1 returns the stored response with the
state untouched; resubmitting K2 conflicts with the state untouched. -/
theorem analyze_replay_ledger_dictates_outcome_witness :
    findRequest c1State 7 "K1"
      = some ⟨0, 7, "K1", LedgerStatus.completed, some "RESP"⟩
    ∧ analyzeMeal c1User 0 0 (some "K1") false (ExecResult.ok "OTHER") false c1State
      = (AnalyzeOutcome.ok "RESP", c1State)
    ∧ analyzeMeal c1User 0 0 (some "K2") false (ExecResult.ok "OTHER") false c1State
      = (AnalyzeOutcome.err AnalyzeError.idempotencyConflict, c1State) :=
  ⟨rfl,
   (analyze_replay_ledger_dictates_outcome c1User 0 0 "K1" false
      (ExecResult.ok "OTHER") false c1State
      ⟨0, 7, "K1", LedgerStatus.completed, some "RESP"⟩ rfl).1 "RESP" rfl rfl,
   (analyze_replay_ledger_dictates_outcome c1User 0 0 "K2" false
      (ExecResult.ok "OTHER") false c1State
      ⟨1, 7, "K2", LedgerStatus.failed, none⟩ rfl).2.1 (Or.inr rfl)⟩

/-! ## C4 : strict less-than reservation against the owner-derived limit -/

/-- C4: reservation against the limit computed from owner state
(subscription status plus referral credits) succeeds exactly when the used
count read under the lock is strictly below the limit, in which case it
increments to used+1 which never exceeds the limit; at or above the limit
(in particular, always, when the limit is zero) it fails with
QUOTA_EXCEEDED, which the pipeline surfaces with the state unchanged. -/
theorem quota_reservation_strict_below_limit (user : UserRow) (now : Int)
    (uid day : Nat) (s : AnalyzeState)
    (hnn : 0 ≤ usageOf s uid day) :
    ((∃ n s', reserveQuota uid day (getUserDailyLimit user now) s
        = Except.ok (n, s'))
      ↔ usageOf s uid day < getUserDailyLimit user now)
    ∧ (∀ n s', reserveQuota uid day (getUserDailyLimit user now) s
          = Except.ok (n, s') →
        n = usageOf s uid day + 1 ∧ usageOf s' uid day = n
          ∧ n ≤ getUserDailyLimit user now)
    ∧ (getUserDailyLimit user now = 0 →
        reserveQuota uid day (getUserDailyLimit user now) s = Except.error ())
    ∧ (∀ forceFail effect commitFails,
        ¬ usageOf s user.id day < getUserDailyLimit user now →
        analyzeMeal user now day none forceFail effect commitFails s
          = (AnalyzeOutcome.err AnalyzeError.quotaExceeded, s)) := by
  rw [reserveQuota_eq]
  refine ⟨?_, ?_, ?_, ?_⟩
  · constructor
    · rintro ⟨n, s', hok⟩
      by_cases hge : usageOf s uid day ≥ getUserDailyLimit user now
      · rw [if_pos hge] at hok
        exact absurd hok (by simp)
      · omega
    · intro hlt
      rw [if_neg (by omega)]
      exact ⟨_, _, rfl⟩
  · intro n s' hok
    by_cases hge : usageOf s uid day ≥ getUserDailyLimit user now
    · rw [if_pos hge] at hok
      exact absurd hok (by simp)
    · rw [if_neg hge] at hok
      have h1 : n = usageOf s uid day + 1 ∧ s' = usageUpdate (usageEnsureRow s uid day)
          uid day (fun u => u + 1) := by
        have := hok
        simp only [Except.ok.injEq, Prod.mk.injEq] at this
        exact ⟨this.1.symm, this.2.symm⟩
      refine ⟨h1.1, ?_, by omega⟩
      rw [h1.2, usageOf_reserve_incr, h1.1]
  · intro hz
    rw [if_pos (by omega)]
  · intro forceFail effect commitFails hge
    unfold analyzeMeal
    simp only []
    rw [if_pos (not_lt.mp hge)]

/-- Witness for C4: a blocked owner with zero referral credits has limit
zero and can never reserve; a free owner with one use of two allowed can. -/
theorem quota_reservation_strict_below_limit_witness :
    (0 : Int) ≤ usageOf (AnalyzeState.mk [] 0 [((7, 0), 1)] 0 0) 7 0
    ∧ ((∃ n s', reserveQuota 7 0
          (getUserDailyLimit (UserRow.mk 7 "free" none 0) 0)
          (AnalyzeState.mk [] 0 [((7, 0), 1)] 0 0) = Except.ok (n, s'))
        ↔ usageOf (AnalyzeState.mk [] 0 [((7, 0), 1)] 0 0) 7 0
            < getUserDailyLimit (UserRow.mk 7 "free" none 0) 0)
    ∧ (getUserDailyLimit (UserRow.mk 7 "blocked" none 0) 0 = 0 →
        reserveQuota 7 0 (getUserDailyLimit (UserRow.mk 7 "blocked" none 0) 0)
          (AnalyzeState.mk [] 0 [((7, 0), 1)] 0 0) = Except.error ()) :=
  ⟨by decide,
   (quota_reservation_strict_below_limit (UserRow.mk 7 "free" none 0) 0 7 0
      (AnalyzeState.mk [] 0 [((7, 0), 1)] 0 0) (by decide)).1,
   (quota_reservation_strict_below_limit (UserRow.mk 7 "blocked" none 0) 0 7 0
      (AnalyzeState.mk [] 0 [((7, 0), 1)] 0 0) (by decide)).2.2.1⟩

/-! ## C10 : key-less submissions bypass the ledger entirely -/

/-- One key-less successful submission: no ledger row touched, one
executor call, one quota unit. -/
theorem analyzeMeal_keyless_step (user : UserRow) (now : Int) (day : Nat)
    (resp : String) (s : AnalyzeState)
    (hlt : usageOf s user.id day < getUserDailyLimit user now) :
    (analyzeMeal user now day none false (ExecResult.ok resp) false s).1
        = AnalyzeOutcome.ok resp
    ∧ (analyzeMeal user now day none false (ExecResult.ok resp) false s).2.ledger
        = s.ledger
    ∧ (analyzeMeal user now day none false (ExecResult.ok resp) false s).2.execCount
        = s.execCount + 1
    ∧ usageOf (analyzeMeal user now day none false (ExecResult.ok resp) false s).2
        user.id day = usageOf s user.id day + 1 := by
  have hres : analyzeMeal user now day none false (ExecResult.ok resp) false s
      = (AnalyzeOutcome.ok resp,
         { usageUpdate (usageEnsureRow s user.id day) user.id day (fun u => u + 1) with
             execCount := (usageUpdate (usageEnsureRow s user.id day) user.id day
               (fun u => u + 1)).execCount + 1,
             meals := (usageUpdate (usageEnsureRow s user.id day) user.id day
               (fun u => u + 1)).meals + 1 }) := by
    unfold analyzeMeal tryBody
    simp only []
    rw [if_neg (not_le.mpr hlt), reserveQuota_eq, if_neg (not_le.mpr hlt)]
    rfl
  rw [hres]
  refine ⟨rfl, ?_, ?_, ?_⟩
  · show (usageUpdate (usageEnsureRow s user.id day) user.id day
      (fun u => u + 1)).ledger = s.ledger
    rw [show (usageUpdate (usageEnsureRow s user.id day) user.id day
      (fun u => u + 1)).ledger = (usageEnsureRow s user.id day).ledger from rfl]
    exact usageEnsureRow_ledger s user.id day
  · show (usageUpdate (usageEnsureRow s user.id day) user.id day
      (fun u => u + 1)).execCount + 1 = s.execCount + 1
    rw [show (usageUpdate (usageEnsureRow s user.id day) user.id day
      (fun u => u + 1)).execCount = (usageEnsureRow s user.id day).execCount from rfl]
    rw [usageEnsureRow_execCount]
  · have h := usageOf_reserve_incr s user.id day
    calc usageOf _ user.id day
        = usageOf (usageUpdate (usageEnsureRow s user.id day) user.id day
            (fun u => u + 1)) user.id day := usageOf_eq_of_usage_eq rfl user.id day
      _ = usageOf s user.id day + 1 := h

/-- N successive key-less submissions, each with the same payload. -/
def runKeyless (user : UserRow) (now : Int) (day : Nat) (resp : String) :
    Nat → AnalyzeState → AnalyzeState
  | 0, s => s
  | n + 1, s => runKeyless user now day resp n
      (analyzeMeal user now day none false (ExecResult.ok resp) false s).2

/-- C10: submissions without an idempotency key bypass the ledger — N
identical key-less successful submissions leave the ledger untouched,
invoke the external effect N times and consume N quota units (when the
limit allows), and every single such submission answers with the fresh
response, never a replay or a conflict. -/
theorem keyless_submissions_bypass_ledger (user : UserRow) (now : Int)
    (day : Nat) (resp : String) (n : Nat) (s0 : AnalyzeState)
    (hnn : 0 ≤ usageOf s0 user.id day)
    (hlim : usageOf s0 user.id day + n ≤ getUserDailyLimit user now) :
    (runKeyless user now day resp n s0).ledger = s0.ledger
    ∧ (runKeyless user now day resp n s0).execCount = s0.execCount + n
    ∧ usageOf (runKeyless user now day resp n s0) user.id day
        = usageOf s0 user.id day + n
    ∧ (∀ s : AnalyzeState, usageOf s user.id day < getUserDailyLimit user now →
        (analyzeMeal user now day none false (ExecResult.ok resp) false s).1
          = AnalyzeOutcome.ok resp) := by
  have hstep : ∀ s : AnalyzeState,
      usageOf s user.id day < getUserDailyLimit user now →
      (analyzeMeal user now day none false (ExecResult.ok resp) false s).1
        = AnalyzeOutcome.ok resp :=
    fun s hs => (analyzeMeal_keyless_step user now day resp s hs).1
  refine ⟨?_, ?_, ?_, hstep⟩ <;>
  · induction n generalizing s0 with
    | zero => simp [runKeyless]
    | succ m ih =>
        have hlt : usageOf s0 user.id day < getUserDailyLimit user now := by omega
        obtain ⟨h1, h2, h3, h4⟩ := analyzeMeal_keyless_step user now day resp s0 hlt
        have ihm := ih
          ((analyzeMeal user now day none false (ExecResult.ok resp) false s0).2)
          (by omega) (by omega)
        show _ = _
        unfold runKeyless
        first
        | (rw [ihm]; omega)
        | (rw [ihm, h2])

/-- Witness for C10: three key-less submissions by a free user starting
from an empty store execute the effect three times and consume three quota
units with the ledger still empty. -/
theorem keyless_submissions_bypass_ledger_witness :
    (0 : Int) ≤ usageOf (AnalyzeState.mk [] 0 [] 0 0) 7 0
    ∧ usageOf (AnalyzeState.mk [] 0 [] 0 0) 7 0 + 2
        ≤ getUserDailyLimit (UserRow.mk 7 "free" none 0) 0
    ∧ ((runKeyless (UserRow.mk 7 "free" none 0) 0 0 "RESP" 2
          (AnalyzeState.mk [] 0 [] 0 0)).ledger = (AnalyzeState.mk [] 0 [] 0 0).ledger
       ∧ (runKeyless (UserRow.mk 7 "free" none 0) 0 0 "RESP" 2
          (AnalyzeState.mk [] 0 [] 0 0)).execCount
            = (AnalyzeState.mk [] 0 [] 0 0).execCount + 2
       ∧ usageOf (runKeyless (UserRow.mk 7 "free" none 0) 0 0 "RESP" 2
          (AnalyzeState.mk [] 0 [] 0 0)) 7 0
            = usageOf (AnalyzeState.mk [] 0 [] 0 0) 7 0 + 2
       ∧ (∀ s : AnalyzeState, usageOf s 7 0
              < getUserDailyLimit (UserRow.mk 7 "free" none 0) 0 →
            (analyzeMeal (UserRow.mk 7 "free" none 0) 0 0 none false
              (ExecResult.ok "RESP") false s).1 = AnalyzeOutcome.ok "RESP")) :=
  ⟨by decide, by decide,
   keyless_submissions_bypass_ledger (UserRow.mk 7 "free" none 0) 0 0 "RESP" 2
     (AnalyzeState.mk [] 0 [] 0 0) (by decide) (by decide)⟩

/-! ## C3 : compensation restores the counter and fails the ledger row -/

/-- Effect of the `except` block when the quota was incremented and a
`processing` ledger record exists: the used count returns to its
pre-attempt value and the record is marked failed. -/
theorem compensate_spec (uid day i : Nat) (k : String) (sx : AnalyzeState)
    (u0 : Int) (hu : usageOf sx uid day = u0 + 1) (hnn : 0 ≤ u0)
    (hfind : findRequest sx uid k
      = some ⟨i, uid, k, LedgerStatus.processing, none⟩) :
    usageOf (compensate uid day true (some i) sx) uid day = u0
    ∧ findRequest (compensate uid day true (some i) sx) uid k
        = some ⟨i, uid, k, LedgerStatus.failed, none⟩ := by
  constructor
  · show usageOf (ledgerMarkFailed (releaseQuota uid day sx) i) uid day = u0
    have hiu : usageOf (ledgerMarkFailed (releaseQuota uid day sx) i) uid day
        = usageOf (releaseQuota uid day sx) uid day :=
      usageOf_eq_of_usage_eq rfl uid day
    rw [hiu, usageOf_releaseQuota, hu]
    have h2 : u0 + 1 - 1 = u0 := by omega
    rw [h2]
    exact max_eq_right hnn
  · show findRequest (ledgerMarkFailed (releaseQuota uid day sx) i) uid k = _
    have hif : findRequest (releaseQuota uid day sx) uid k = findRequest sx uid k :=
      findRequest_eq_of_ledger_eq rfl uid k
    rw [findRequest_ledgerMarkFailed, hif, hfind]
    simp

/-- Effect of the `except` block for a key-less attempt: the quota was
incremented but no ledger record exists (`analyze_request_id` is None), so
compensation is the release alone — the used count returns to its
pre-attempt value and the ledger is untouched. -/
theorem compensate_none_spec (uid day : Nat) (sx : AnalyzeState) (u0 : Int)
    (hu : usageOf sx uid day = u0 + 1) (hnn : 0 ≤ u0) :
    usageOf (compensate uid day true none sx) uid day = u0
    ∧ (compensate uid day true none sx).ledger = sx.ledger := by
  constructor
  · show usageOf (releaseQuota uid day sx) uid day = u0
    rw [usageOf_releaseQuota, hu]
    have h2 : u0 + 1 - 1 = u0 := by omega
    rw [h2]
    exact max_eq_right hnn
  · rfl

/-- C3: any failure after the quota reservation — the forced-failure
switch, an executor/validation failure, or a commit failure — surfaces an
error only after compensation ran: the per-user per-day used count is back
at its pre-attempt value, and the ledger record, if one was created (i.e.
the request carried an idempotency key), is marked failed; a key-less
attempt created no record, and its compensation leaves the ledger
untouched while still releasing the quota. The release primitive itself
floors at zero: releasing at zero is a no-op and the counter never goes
negative. -/
theorem analyze_failure_compensation (user : UserRow) (now : Int) (day : Nat)
    (key : Option String) (forceFail : Bool) (effect : ExecResult)
    (commitFails : Bool) (s0 : AnalyzeState)
    (hfree : ∀ k, key = some k → findRequest s0 user.id k = none)
    (hnn : 0 ≤ usageOf s0 user.id day)
    (hlt : usageOf s0 user.id day < getUserDailyLimit user now)
    (hfail : forceFail = true ∨ (∃ e, effect = ExecResult.fail e)
      ∨ commitFails = true) :
    ((∃ e, (analyzeMeal user now day key forceFail effect commitFails s0).1
        = AnalyzeOutcome.err e)
      ∧ usageOf (analyzeMeal user now day key forceFail effect
          commitFails s0).2 user.id day = usageOf s0 user.id day
      ∧ (∀ k, key = some k →
          ∃ r, findRequest (analyzeMeal user now day key forceFail effect
            commitFails s0).2 user.id k = some r
            ∧ r.status = LedgerStatus.failed)
      ∧ (key = none →
          (analyzeMeal user now day key forceFail effect commitFails s0).2.ledger
            = s0.ledger))
    ∧ (∀ (s : AnalyzeState) (uid d : Nat), usageOf s uid d = 0 →
        usageOf (releaseQuota uid d s) uid d = 0)
    ∧ (∀ (s : AnalyzeState) (uid d : Nat),
        0 ≤ usageOf (releaseQuota uid d s) uid d) := by
  have hrel0 : ∀ (s : AnalyzeState) (uid d : Nat), usageOf s uid d = 0 →
      usageOf (releaseQuota uid d s) uid d = 0 := by
    intro s uid d hz
    rw [usageOf_releaseQuota, hz]
    decide
  have hrelnn : ∀ (s : AnalyzeState) (uid d : Nat),
      0 ≤ usageOf (releaseQuota uid d s) uid d := by
    intro s uid d
    rw [usageOf_releaseQuota]
    exact le_max_left 0 _
  refine ⟨?_, hrel0, hrelnn⟩
  cases key with
  | none =>
      have assembleN : ∀ (E : AnalyzeError) (sx : AnalyzeState),
          analyzeMeal user now day none forceFail effect commitFails s0
            = (AnalyzeOutcome.err E, compensate user.id day true none sx) →
          usageOf sx user.id day = usageOf s0 user.id day + 1 →
          sx.ledger = s0.ledger →
          (∃ e, (analyzeMeal user now day none forceFail effect commitFails s0).1
              = AnalyzeOutcome.err e)
          ∧ usageOf (analyzeMeal user now day none forceFail effect
              commitFails s0).2 user.id day = usageOf s0 user.id day
          ∧ (∀ k, (none : Option String) = some k →
              ∃ r, findRequest (analyzeMeal user now day none forceFail effect
                commitFails s0).2 user.id k = some r
                ∧ r.status = LedgerStatus.failed)
          ∧ ((none : Option String) = none →
              (analyzeMeal user now day none forceFail effect
                commitFails s0).2.ledger = s0.ledger) := by
        intro E sx hres hu hledger
        obtain ⟨hcu, hcl⟩ := compensate_none_spec user.id day sx
          (usageOf s0 user.id day) hu hnn
        exact ⟨⟨E, by rw [hres]⟩, by rw [hres]; exact hcu,
          fun k hk => Option.noConfusion hk,
          fun _ => by rw [hres]; exact hcl.trans hledger⟩
      have huN : usageOf (usageUpdate (usageEnsureRow s0 user.id day) user.id day
          (fun u => u + 1)) user.id day = usageOf s0 user.id day + 1 :=
        usageOf_reserve_incr s0 user.id day
      have hlN : (usageUpdate (usageEnsureRow s0 user.id day) user.id day
          (fun u => u + 1)).ledger = s0.ledger :=
        usageEnsureRow_ledger s0 user.id day
      cases forceFail with
      | true =>
          refine assembleN AnalyzeError.internalError _ ?_ huN hlN
          unfold analyzeMeal tryBody
          simp only []
          rw [if_neg (not_le.mpr hlt), reserveQuota_eq, if_neg (not_le.mpr hlt)]
          rfl
      | false =>
          cases effect with
          | fail e =>
              refine assembleN e
                { usageUpdate (usageEnsureRow s0 user.id day) user.id day
                    (fun u => u + 1) with
                  execCount := (usageUpdate (usageEnsureRow s0 user.id day)
                    user.id day (fun u => u + 1)).execCount + 1 }
                ?_ huN hlN
              unfold analyzeMeal tryBody
              simp only []
              rw [if_neg (not_le.mpr hlt), reserveQuota_eq,
                if_neg (not_le.mpr hlt)]
              rfl
          | ok resp =>
              cases commitFails with
              | true =>
                  refine assembleN AnalyzeError.internalError
                    { usageUpdate (usageEnsureRow s0 user.id day) user.id day
                        (fun u => u + 1) with
                      execCount := (usageUpdate (usageEnsureRow s0 user.id day)
                        user.id day (fun u => u + 1)).execCount + 1 }
                    ?_ huN hlN
                  unfold analyzeMeal tryBody
                  simp only []
                  rw [if_neg (not_le.mpr hlt), reserveQuota_eq,
                    if_neg (not_le.mpr hlt)]
                  rfl
              | false =>
                  rcases hfail with hf | ⟨e, hf⟩ | hf <;>
                    exact absurd hf (by simp)
  | some k =>
      have hfree' : findRequest s0 user.id k = none := hfree k rfl
      have husIns : usageOf (ledgerInsert s0 user.id k).1 user.id day
          = usageOf s0 user.id day := usageOf_eq_of_usage_eq rfl user.id day
      have hins : findRequest (ledgerInsert s0 user.id k).1 user.id k
          = some ⟨s0.nextId, user.id, k, LedgerStatus.processing, none⟩ := by
        unfold findRequest ledgerInsert
        simp [List.find?_cons]
      have hu2 : usageOf (usageUpdate (usageEnsureRow
          (ledgerInsert s0 user.id k).1 user.id day) user.id day
            (fun u => u + 1)) user.id day
          = usageOf s0 user.id day + 1 := by
        rw [usageOf_reserve_incr, husIns]
      have hfind2 : findRequest (usageUpdate (usageEnsureRow
          (ledgerInsert s0 user.id k).1 user.id day) user.id day
            (fun u => u + 1)) user.id k
          = some ⟨s0.nextId, user.id, k, LedgerStatus.processing, none⟩ := by
        have hl2 : (usageUpdate (usageEnsureRow (ledgerInsert s0 user.id k).1
            user.id day) user.id day (fun u => u + 1)).ledger
              = (ledgerInsert s0 user.id k).1.ledger :=
          usageEnsureRow_ledger _ _ _
        exact (findRequest_eq_of_ledger_eq hl2 user.id k).trans hins
      have assemble : ∀ (E : AnalyzeError) (sx : AnalyzeState),
          analyzeMeal user now day (some k) forceFail effect commitFails s0
            = (AnalyzeOutcome.err E,
               compensate user.id day true (some s0.nextId) sx) →
          usageOf sx user.id day = usageOf s0 user.id day + 1 →
          findRequest sx user.id k
            = some ⟨s0.nextId, user.id, k, LedgerStatus.processing, none⟩ →
          (∃ e, (analyzeMeal user now day (some k) forceFail effect
              commitFails s0).1 = AnalyzeOutcome.err e)
          ∧ usageOf (analyzeMeal user now day (some k) forceFail effect
              commitFails s0).2 user.id day = usageOf s0 user.id day
          ∧ (∀ k', (some k : Option String) = some k' →
              ∃ r, findRequest (analyzeMeal user now day (some k) forceFail
                effect commitFails s0).2 user.id k' = some r
                ∧ r.status = LedgerStatus.failed)
          ∧ ((some k : Option String) = none →
              (analyzeMeal user now day (some k) forceFail effect
                commitFails s0).2.ledger = s0.ledger) := by
        intro E sx hres hu hfind
        obtain ⟨hcu, hcf⟩ := compensate_spec user.id day s0.nextId k sx
          (usageOf s0 user.id day) hu hnn hfind
        refine ⟨⟨E, by rw [hres]⟩, by rw [hres]; exact hcu, ?_,
          fun h => Option.noConfusion h⟩
        intro k' hk'
        cases hk'
        exact ⟨⟨s0.nextId, user.id, k, LedgerStatus.failed, none⟩,
          by rw [hres]; exact hcf, rfl⟩
      cases forceFail with
      | true =>
          refine assemble AnalyzeError.internalError _ ?_ hu2 hfind2
          unfold analyzeMeal tryBody
          simp only [hfree']
          rw [if_neg (not_le.mpr hlt), reserveQuota_eq, husIns,
            if_neg (not_le.mpr hlt)]
          rfl
      | false =>
          cases effect with
          | fail e =>
              refine assemble e
                { usageUpdate (usageEnsureRow (ledgerInsert s0 user.id k).1
                    user.id day) user.id day (fun u => u + 1) with
                  execCount := (usageUpdate (usageEnsureRow
                    (ledgerInsert s0 user.id k).1 user.id day) user.id day
                      (fun u => u + 1)).execCount + 1 }
                ?_ hu2 hfind2
              unfold analyzeMeal tryBody
              simp only [hfree']
              rw [if_neg (not_le.mpr hlt), reserveQuota_eq, husIns,
                if_neg (not_le.mpr hlt)]
              rfl
          | ok resp =>
              cases commitFails with
              | true =>
                  refine assemble AnalyzeError.internalError
                    { usageUpdate (usageEnsureRow (ledgerInsert s0 user.id k).1
                        user.id day) user.id day (fun u => u + 1) with
                      execCount := (usageUpdate (usageEnsureRow
                        (ledgerInsert s0 user.id k).1 user.id day) user.id day
                          (fun u => u + 1)).execCount + 1 }
                    ?_ hu2 hfind2
                  unfold analyzeMeal tryBody
                  simp only [hfree']
                  rw [if_neg (not_le.mpr hlt), reserveQuota_eq, husIns,
                    if_neg (not_le.mpr hlt)]
                  rfl
              | false =>
                  rcases hfail with hf | ⟨e, hf⟩ | hf <;>
                    exact absurd hf (by simp)

/-- Witness for C3: a forced failure after reservation on an empty store,
once with key K1 (counter restored, record failed) and once without a key
(counter restored, ledger untouched). -/
theorem analyze_failure_compensation_witness :
    (findRequest (AnalyzeState.mk [] 0 [] 0 0) 7 "K1" = none
      ∧ (0 : Int) ≤ usageOf (AnalyzeState.mk [] 0 [] 0 0) 7 0
      ∧ usageOf (AnalyzeState.mk [] 0 [] 0 0) 7 0
          < getUserDailyLimit (UserRow.mk 7 "free" none 0) 0
      ∧ (true = true ∨ (∃ e, ExecResult.ok "RESP" = ExecResult.fail e)
          ∨ false = true))
    ∧ (((∃ e, (analyzeMeal (UserRow.mk 7 "free" none 0) 0 0 (some "K1") true
          (ExecResult.ok "RESP") false (AnalyzeState.mk [] 0 [] 0 0)).1
            = AnalyzeOutcome.err e)
        ∧ usageOf (analyzeMeal (UserRow.mk 7 "free" none 0) 0 0 (some "K1") true
            (ExecResult.ok "RESP") false (AnalyzeState.mk [] 0 [] 0 0)).2 7 0
          = usageOf (AnalyzeState.mk [] 0 [] 0 0) 7 0
        ∧ (∀ k, (some "K1" : Option String) = some k →
            ∃ r, findRequest (analyzeMeal (UserRow.mk 7 "free" none 0) 0 0
                (some "K1") true (ExecResult.ok "RESP") false
                (AnalyzeState.mk [] 0 [] 0 0)).2 7 k = some r
              ∧ r.status = LedgerStatus.failed))
       ∧ (∀ (s : AnalyzeState) (uid d : Nat), usageOf s uid d = 0 →
           usageOf (releaseQuota uid d s) uid d = 0)
       ∧ (∀ (s : AnalyzeState) (uid d : Nat),
           0 ≤ usageOf (releaseQuota uid d s) uid d))
    ∧ (usageOf (analyzeMeal (UserRow.mk 7 "free" none 0) 0 0 none true
          (ExecResult.ok "RESP") false (AnalyzeState.mk [] 0 [] 0 0)).2 7 0
        = usageOf (AnalyzeState.mk [] 0 [] 0 0) 7 0
      ∧ (analyzeMeal (UserRow.mk 7 "free" none 0) 0 0 none true
          (ExecResult.ok "RESP") false
          (AnalyzeState.mk [] 0 [] 0 0)).2.ledger
        = (AnalyzeState.mk [] 0 [] 0 0).ledger) :=
  have tSome := analyze_failure_compensation (UserRow.mk 7 "free" none 0) 0 0
    (some "K1") true (ExecResult.ok "RESP") false (AnalyzeState.mk [] 0 [] 0 0)
    (fun k hk => by cases hk; rfl) (by decide) (by decide) (Or.inl rfl)
  have tNone := analyze_failure_compensation (UserRow.mk 7 "free" none 0) 0 0
    none true (ExecResult.ok "RESP") false (AnalyzeState.mk [] 0 [] 0 0)
    (fun k hk => Option.noConfusion hk) (by decide) (by decide) (Or.inl rfl)
  ⟨⟨rfl, by decide, by decide, Or.inl rfl⟩,
   ⟨⟨tSome.1.1, tSome.1.2.1, tSome.1.2.2.1⟩, tSome.2.1, tSome.2.2⟩,
   tNone.1.2.1, tNone.1.2.2.2 rfl⟩

end FitAI
